import Mathlib

/-!
Verification of the Mgit repository operations engine.

Python strings are embedded as `List Char`; each Python string operation used
by the source (`strip`, `startswith`, `endswith`, `in`, `count`, `replace`,
`split`, `join`) is given a faithful executable model.  The Git backend
(GitPython) and the filesystem are external collaborators and are modelled as
oracles; the control flow, string handling and error wrapping of the
repository's own code are embedded directly from `src/utils/git_manager.py`,
`src/utils/git_thread.py` and `src/utils/oauth_handler.py`.
-/

/-- Coerce a Lean string literal to the `List Char` representation used for
Python strings throughout this development. -/
def pys (s : String) : List Char := s.data

/-- Python `str.strip()` whitespace test (ASCII part, which is all the
sources ever strip). -/
def isSpacePy (c : Char) : Bool :=
  c = ' ' || c = '\t' || c = '\n' || c = '\r' || c = Char.ofNat 11 || c = Char.ofNat 12

/-- Python `s.strip()`: drop whitespace from both ends. -/
def pyStrip (s : List Char) : List Char :=
  ((s.dropWhile isSpacePy).reverse.dropWhile isSpacePy).reverse

/-- Python `s in t` substring test (`True` for an empty pattern). -/
def containsSub (p : List Char) : List Char → Bool
  | [] => p.isEmpty
  | c :: r => p.isPrefixOf (c :: r) || containsSub p r

/-- Fuel-driven worker for Python `s.replace(p, q)` (non-overlapping,
left-to-right).  The fuel is always instantiated with `s.length`, which is
enough since every step consumes at least one character. -/
def pyReplaceF (q p : List Char) : Nat → List Char → List Char
  | _, [] => []
  | 0, s => s
  | f + 1, c :: r =>
    if ¬ p.isEmpty ∧ p.isPrefixOf (c :: r) then
      q ++ pyReplaceF q p f (r.drop (p.length - 1))
    else
      c :: pyReplaceF q p f r

/-- Python `s.replace(p, q)` for a non-empty pattern `p`
(the sources never replace an empty pattern). -/
def pyReplace (p q s : List Char) : List Char :=
  pyReplaceF q p s.length s

/-- Fuel-driven worker for Python `s.split(p)` with non-empty separator. -/
def pySplitF (p : List Char) : Nat → List Char → List (List Char)
  | _, [] => [[]]
  | 0, s => [s]
  | f + 1, c :: r =>
    if ¬ p.isEmpty ∧ p.isPrefixOf (c :: r) then
      [] :: pySplitF p f (r.drop (p.length - 1))
    else
      match pySplitF p f r with
      | [] => [[c]]
      | h :: t => (c :: h) :: t

/-- Python `s.split(p)` for a non-empty separator `p`. -/
def pySplit (p s : List Char) : List (List Char) :=
  pySplitF p s.length s

/-- Python `s.count(p)` for a non-empty pattern: number of non-overlapping
occurrences. -/
def pyCount (p s : List Char) : Nat :=
  (pySplit p s).length - 1

/-- Python `s.endswith(p)`. -/
def pyEndsWith (p s : List Char) : Bool :=
  p.reverse.isPrefixOf s.reverse

/-- Python `sep.join(xs)`. -/
def pyJoin (sep : List Char) (xs : List (List Char)) : List Char :=
  List.intercalate sep xs

/-! ## `GitManager.sanitize_url` (src/utils/git_manager.py lines 597-657)

The function is embedded stage by stage, in the order of the source; the
composite `sanitize_url` below strings the stages together exactly as the
Python function does. -/

/-- Shorthand expansion: `if not url.startswith("http") and not
url.startswith("git@") and "/" in url: if url.count("/") == 1:
url = f"https://github.com/{url}.git"`. -/
def shStage (url : List Char) : List Char :=
  if ¬ (pys "http").isPrefixOf url ∧ ¬ (pys "git@").isPrefixOf url ∧
      containsSub (pys "/") url then
    if pyCount (pys "/") url = 1 then pys "https://github.com/" ++ url ++ pys ".git"
    else url
  else url

/-- GitHub-specific shortcut repair: `if "github.com:HeDass-OF" in url:
url = url.replace("github.com:HeDass-OF", "github.com/HeDass-OF")`. -/
def heStage (url : List Char) : List Char :=
  if containsSub (pys "github.com:HeDass-OF") url then
    pyReplace (pys "github.com:HeDass-OF") (pys "github.com/HeDass-OF") url
  else url

/-- GitHub URL normalisation block (`if "github.com" in url: ...`):
colon-slash repairs, the `":github.com"` fix and the `"github.com:"`
split-and-rejoin. -/
def ghStage (url : List Char) : List Char :=
  if containsSub (pys "github.com") url then
    let url := pyReplace (pys "github.com:/") (pys "github.com/") url
    let url := pyReplace (pys "github.com://") (pys "github.com/") url
    let url := pyReplace (pys "github.com:///") (pys "github.com/") url
    let url :=
      if containsSub (pys ":github.com") url ∧
          ¬ containsSub (pys "git@:github.com") url then
        pyReplace (pys ":github.com") (pys "github.com") url
      else url
    if ¬ (pys "git@").isPrefixOf url ∧ containsSub (pys "github.com:") url then
      let parts := pySplit (pys "github.com:") url
      if parts.length > 1 then
        if (pys "http").isPrefixOf url then
          (parts.getD 0 []) ++ pys "github.com/" ++ (parts.getD 1 [])
        else
          pys "https://github.com/" ++ (parts.getD 1 [])
      else url
    else url
  else url

/-- Colon repair: `if ":" in url and not url.startswith("git@"): parts =
url.split(":") ...` re-deriving `protocol + domain + "/" + "/".join(parts[1:])`. -/
def colonStage (url : List Char) : List Char :=
  if containsSub (pys ":") url ∧ ¬ (pys "git@").isPrefixOf url then
    let parts := pySplit (pys ":") url
    if parts.length > 1 ∧ ¬ pyEndsWith (pys "//") (parts.getD 0 []) then
      let domain_parts := pySplit (pys "//") (parts.getD 0 [])
      if domain_parts.length > 1 then
        ((domain_parts.getD 0 []) ++ pys "//") ++ (domain_parts.getD 1 []) ++
          pys "/" ++ pyJoin (pys "/") (parts.drop 1)
      else url
    else url
  else url

/-- Full-width parenthesis replacement:
`url.replace("（", "(").replace("）", ")")`. -/
def parenStage (url : List Char) : List Char :=
  pyReplace (pys "）") (pys ")") (pyReplace (pys "（") (pys "(") url)

/-- `.git` suffix appending: `if "github.com" in url and not
url.endswith(".git") and not "github.com//" in url: if not any(char in url
for char in "?&#"): url = url + ".git"`. -/
def gitSuffixStage (url : List Char) : List Char :=
  if containsSub (pys "github.com") url ∧ ¬ pyEndsWith (pys ".git") url ∧
      ¬ containsSub (pys "github.com//") url then
    if ¬ (containsSub (pys "?") url ∨ containsSub (pys "&") url ∨
        containsSub (pys "#") url) then
      url ++ pys ".git"
    else url
  else url

/-- `GitManager.sanitize_url`: `url.strip()` followed by the six repair
stages, in source order. -/
def sanitize_url (url : List Char) : List Char :=
  gitSuffixStage (parenStage (colonStage (ghStage (heStage (shStage (pyStrip url))))))

example : sanitize_url (pys "octocat/Hello-World") =
    pys "https://github.com/octocat/Hello-World.git" := by decide

example : sanitize_url (pys "https://github.com/a/b.git") =
    pys "https://github.com/a/b.git" := by decide

/-! ## Repository handle state model (src/utils/git_manager.py)

`RepoState` captures the observable repository state the embedded operations
read and write: validity (`isValidRepo`), the bound path (`repo_path`), the
current branch (`repo.active_branch.name`) and the remote list
(`repo.remotes`, as `(name, url)` pairs).  Calls into the GitPython backend
are recorded as `GitAction`s and their success or failure is supplied by a
`GitBackend` oracle, whose error payload is the `str(e)` text of the raised
`GitCommandError`. -/

/-- A call into the GitPython / filesystem backend, in issue order. -/
inductive GitAction where
  | gitAdd (paths : List (List Char))
  | gitCommit (message : List Char)
  | gitPull (remote branch : List Char)
  | gitPush (setUpstream : Bool) (remote branch : List Char)
  | gitFetch (remote : List Char)
  | createRemote (name url : List Char)
  | makeDirs
  | gitInit (branch : List Char)
  | writeReadme
  | gitClone (url target : List Char)
deriving DecidableEq

/-- Outcomes of backend calls, supplied as an oracle.  An `Except.error`
carries the diagnostic text of the `git.exc.GitCommandError` the backend
raised. -/
structure GitBackend where
  addResult : List (List Char) → Except (List Char) Unit
  commitResult : List Char → Except (List Char) Unit
  pullResult : List Char → List Char → Except (List Char) Unit
  pushResult : Bool → List Char → List Char → Except (List Char) Unit
  fetchResult : List Char → Except (List Char) Unit
  createRemoteResult : List Char → List Char → Except (List Char) Unit
  cloneResult : List Char → List Char → Except (List Char) Unit
  makeDirsResult : Except (List Char) Unit
  gitInitResult : List Char → Except (List Char) Unit
  writeReadmeResult : Except (List Char) Unit

/-- A backend whose every call succeeds. -/
def okBackend : GitBackend where
  addResult := fun _ => .ok ()
  commitResult := fun _ => .ok ()
  pullResult := fun _ _ => .ok ()
  pushResult := fun _ _ _ => .ok ()
  fetchResult := fun _ => .ok ()
  createRemoteResult := fun _ _ => .ok ()
  cloneResult := fun _ _ => .ok ()
  makeDirsResult := .ok ()
  gitInitResult := fun _ => .ok ()
  writeReadmeResult := .ok ()

/-- Observable state of one `GitManager` instance. -/
structure RepoState where
  valid : Bool
  repoPath : List Char
  currentBranch : List Char
  remotes : List (List Char × List Char)
deriving DecidableEq

/-- `GitManager.getCurrentBranch`: empty string on an invalid handle,
otherwise the active branch name. -/
def GitManager.getCurrentBranch (st : RepoState) : List Char :=
  if ¬ st.valid then [] else st.currentBranch

/-- `os.path.isabs` (POSIX). -/
def pyIsAbs (p : List Char) : Bool :=
  (pys "/").isPrefixOf p

/-- Number of leading components two paths share. -/
def commonPrefixLen : List (List Char) → List (List Char) → Nat
  | a :: as, b :: bs => if a = b then commonPrefixLen as bs + 1 else 0
  | _, _ => 0

/-- Model of `os.path.relpath(path, start)` (POSIX, inputs taken as already
normalised): drop the common leading components, then climb with `..`. -/
def pyRelpath (path start : List Char) : List Char :=
  let p := (pySplit (pys "/") path).filter (fun c => ¬ c.isEmpty)
  let s := (pySplit (pys "/") start).filter (fun c => ¬ c.isEmpty)
  let i := commonPrefixLen p s
  let rel := List.replicate (s.length - i) (pys "..") ++ p.drop i
  if rel.isEmpty then pys "." else pyJoin (pys "/") rel

/-- The path normalisation loop shared by `stage`/`unstage`: absolute paths
become repo-relative, relative paths pass through. -/
def GitManager.relativize (st : RepoState) (p : List Char) : List Char :=
  if pyIsAbs p then pyRelpath p st.repoPath else p

/-- `GitManager.stage` (lines 123-138): no-op on an invalid handle, else
relativize the paths and call `repo.git.add`. -/
def GitManager.stage (st : RepoState) (be : GitBackend) (paths : List (List Char)) :
    List GitAction × Except (List Char) Unit :=
  if ¬ st.valid then ([], .ok ())
  else
    let rel := paths.map (GitManager.relativize st)
    ([.gitAdd rel], be.addResult rel)

/-- `GitManager.commit` (lines 155-164): no-op on an invalid handle, else
`self.stage(file_paths)` followed by `repo.git.commit('-m', message)`;
there is no check on the message. -/
def GitManager.commit (st : RepoState) (be : GitBackend) (paths : List (List Char))
    (message : List Char) : List GitAction × Except (List Char) Unit :=
  if ¬ st.valid then ([], .ok ())
  else
    match GitManager.stage st be paths with
    | (t, .error e) => (t, .error e)
    | (t, .ok _) => (t ++ [.gitCommit message], be.commitResult message)

/-- The remote-name membership test `remote_name in [r.name for r in
self.repo.remotes]`. -/
def GitManager.hasRemote (st : RepoState) (name : List Char) : Bool :=
  st.remotes.any (fun r => r.1 == name)

/-- `pull`'s `GitCommandError` classification table (lines 186-197). -/
def classifyPull (remote e : List Char) : List Char :=
  let m := e.map Char.toLower
  if containsSub (pys "could not resolve host") m then
    pys "无法连接到远程仓库，请检查网络连接"
  else if containsSub (pys "authentication failed") m then
    pys "身份验证失败，请检查您的凭据"
  else if containsSub (pys "not a git repository") m then
    pys "远程 '" ++ remote ++ pys "' 不是有效的Git仓库"
  else if containsSub (pys "no such remote") m then
    pys "找不到名为 '" ++ remote ++ pys "' 的远程仓库"
  else
    pys "拉取更改失败: " ++ e

/-- `GitManager.pull` (lines 166-199): check the remote exists, resolve an
omitted branch to the current branch, run `repo.git.pull`, classify backend
failures; the remote-missing `Exception` is wrapped by the generic
`except Exception` clause. -/
def GitManager.pull (st : RepoState) (be : GitBackend) (remote : List Char)
    (branch : Option (List Char)) : List GitAction × Except (List Char) Unit :=
  if ¬ st.valid then ([], .ok ())
  else if ¬ GitManager.hasRemote st remote then
    ([], .error (pys "拉取更改失败: " ++
      (pys "找不到名为 '" ++ remote ++ pys "' 的远程仓库")))
  else
    let b := match branch with
      | none => GitManager.getCurrentBranch st
      | some x => x
    ([.gitPull remote b],
      match be.pullResult remote b with
      | .ok _ => .ok ()
      | .error e => .error (classifyPull remote e))

/-- The URL shown in `push`'s "not a git repository" message:
first URL of the remote, or `未知URL`. -/
def GitManager.remoteUrl (st : RepoState) (remote : List Char) : List Char :=
  match st.remotes.find? (fun r => r.1 == remote) with
  | some r => r.2
  | none => pys "未知URL"

/-- `push`'s `GitCommandError` classification table (lines 234-250). -/
def classifyPush (remote remoteUrl e : List Char) : List Char :=
  let m := e.map Char.toLower
  if containsSub (pys "could not resolve host") m then
    pys "无法连接到远程仓库，请检查网络连接"
  else if containsSub (pys "authentication failed") m ∨
      containsSub (pys "not authorized") m then
    pys "身份验证失败，请检查您的凭据和权限是否正确"
  else if containsSub (pys "not a git repository") m ∨
      containsSub (pys "repository not found") m then
    pys "远程 '" ++ remote ++ pys "' 不是有效的Git仓库或您没有访问权限，URL: " ++ remoteUrl
  else if containsSub (pys "no such remote") m then
    pys "找不到名为 '" ++ remote ++ pys "' 的远程仓库"
  else if containsSub (pys "refused") m then
    pys "远程仓库拒绝了推送，可能需要先拉取更新"
  else if containsSub (pys "remote contains work that you do") m ∨
      containsSub (pys "reject") m then
    pys "远程仓库包含您没有的更改，请先使用拉取(pull)操作"
  else
    pys "推送更改失败: " ++ e

/-- `GitManager.push` (lines 201-252): same shape as `pull`, with the
`set_upstream` flag choosing `git push -u`. -/
def GitManager.push (st : RepoState) (be : GitBackend) (remote : List Char)
    (branch : Option (List Char)) (setUpstream : Bool) :
    List GitAction × Except (List Char) Unit :=
  if ¬ st.valid then ([], .ok ())
  else if ¬ GitManager.hasRemote st remote then
    ([], .error (pys "推送更改失败: " ++
      (pys "找不到名为 '" ++ remote ++ pys "' 的远程仓库")))
  else
    let b := match branch with
      | none => GitManager.getCurrentBranch st
      | some x => x
    ([.gitPush setUpstream remote b],
      match be.pushResult setUpstream remote b with
      | .ok _ => .ok ()
      | .error e => .error (classifyPush remote (GitManager.remoteUrl st remote) e))

/-- `GitManager.fetch` (lines 418-429): the backend call (including the
`self.repo.remotes[remote_name]` lookup) is wrapped by one generic
`except Exception`. -/
def GitManager.fetch (st : RepoState) (be : GitBackend) (remote : List Char) :
    List GitAction × Except (List Char) Unit :=
  if ¬ st.valid then ([], .ok ())
  else
    ([.gitFetch remote],
      match be.fetchResult remote with
      | .ok _ => .ok ()
      | .error e => .error (pys "获取更新失败: " ++ e))

/-- `GitManager.addRemote` (lines 363-384): sanitize the URL, reject a
duplicate name, otherwise `create_remote`; every failure is wrapped as
`添加远程仓库失败: ...`. -/
def GitManager.addRemote (st : RepoState) (be : GitBackend) (name url : List Char) :
    List GitAction × Except (List Char) RepoState :=
  if ¬ st.valid then ([], .ok st)
  else
    let u := sanitize_url url
    if GitManager.hasRemote st name then
      ([], .error (pys "添加远程仓库失败: " ++
        (pys "远程仓库 '" ++ name ++ pys "' 已存在")))
    else
      ([.createRemote name u],
        match be.createRemoteResult name u with
        | .ok _ => .ok { st with remotes := st.remotes ++ [(name, u)] }
        | .error e => .error (pys "添加远程仓库失败: " ++ e))

/-- `GitManager.syncWithRemote` (lines 705-723): resolve an omitted branch
once, then `self.pull(remote, branch)` followed by `self.push(remote,
branch)`; any failure is re-raised as `同步失败: ...`. -/
def GitManager.syncWithRemote (st : RepoState) (be : GitBackend) (remote : List Char)
    (branch : Option (List Char)) : List GitAction × Except (List Char) Unit :=
  if ¬ st.valid then ([], .ok ())
  else
    let b := match branch with
      | none => GitManager.getCurrentBranch st
      | some x => x
    match GitManager.pull st be remote (some b) with
    | (t1, .error e) => (t1, .error (pys "同步失败: " ++ e))
    | (t1, .ok _) =>
      match GitManager.push st be remote (some b) false with
      | (t2, .error e) => (t1 ++ t2, .error (pys "同步失败: " ++ e))
      | (t2, .ok _) => (t1 ++ t2, .ok ())

/-! ## Factory operations: `initRepository` and `cloneRepository` -/

/-- What the filesystem shows at the target path when `initRepository` runs:
`os.path.exists(path)`, whether `os.listdir(path)` is non-empty, and
whether `os.path.exists(os.path.join(path, '.git'))`. -/
structure FSView where
  pathExists : Bool
  nonempty : Bool
  hasGit : Bool
deriving DecidableEq

/-- Result of `GitManager.initRepository`: the pre-existing repository or a
freshly initialised one. -/
inductive InitResult where
  | existingRepo
  | newRepo
deriving DecidableEq

/-- The straight-line new-repository block of `initRepository` (lines 43-54):
`git init` on the initial branch, write the README, `add('README.md')`,
`commit('-m', '初始化仓库')`.  Each step may fail through its backend oracle;
the Python propagates the first exception, so the trace stops at the failing
call. -/
def GitManager.initNewRepo (be : GitBackend) (initialBranch : List Char) :
    List GitAction × Except (List Char) InitResult :=
  match be.gitInitResult initialBranch with
  | .error e => ([.gitInit initialBranch], .error e)
  | .ok _ =>
    match be.writeReadmeResult with
    | .error e => ([.gitInit initialBranch, .writeReadme], .error e)
    | .ok _ =>
      match be.addResult [pys "README.md"] with
      | .error e => ([.gitInit initialBranch, .writeReadme, .gitAdd [pys "README.md"]],
          .error e)
      | .ok _ =>
        ([.gitInit initialBranch, .writeReadme, .gitAdd [pys "README.md"],
            .gitCommit (pys "初始化仓库")],
          match be.commitResult (pys "初始化仓库") with
          | .error e => .error e
          | .ok _ => .ok InitResult.newRepo)

/-- `GitManager.initRepository` (lines 24-54): create the directory if
absent (a fresh directory is empty); if the directory is non-empty and
already holds `.git` metadata, return the existing repository; otherwise run
the new-repository block.  Any step's exception propagates to the caller. -/
def GitManager.initRepository (be : GitBackend) (fs : FSView)
    (initialBranch : List Char) : List GitAction × Except (List Char) InitResult :=
  if ¬ fs.pathExists then
    match be.makeDirsResult with
    | .error e => ([.makeDirs], .error e)
    | .ok _ =>
      match GitManager.initNewRepo be initialBranch with
      | (t, r) => (GitAction.makeDirs :: t, r)
  else if fs.nonempty ∧ fs.hasGit then ([], .ok .existingRepo)
  else GitManager.initNewRepo be initialBranch

/-- `cloneRepository`'s `GitCommandError` classification (lines 689-703). -/
def classifyClone (targetPath e : List Char) (branch : Option (List Char)) : List Char :=
  let m := e.map Char.toLower
  if containsSub (pys "could not resolve host") m then
    pys "无法连接到远程仓库，请检查网络连接或URL是否正确"
  else if containsSub (pys "authentication failed") m then
    pys "身份验证失败，请检查您的凭据或确认是否有访问权限"
  else if containsSub (pys "not a git repository") m then
    pys "指定的URL不是一个有效的Git仓库"
  else if containsSub (pys "already exists") m ∧ containsSub (pys "destination path") m then
    pys "目标路径 '" ++ targetPath ++ pys "' 已存在且不为空"
  else if containsSub (pys "couldn't find remote ref") m ∧ branch.isSome then
    pys "找不到指定的分支 '" ++ branch.getD [] ++ pys "'"
  else
    pys "克隆仓库失败: " ++ e

/-- `GitManager.cloneRepository` (lines 661-703): sanitize the URL first,
clone via the backend, classify a `GitCommandError` by its text. -/
def GitManager.cloneRepository (be : GitBackend) (url targetPath : List Char)
    (branch : Option (List Char)) : List GitAction × Except (List Char) Unit :=
  let u := sanitize_url url
  ([.gitClone u targetPath],
    match be.cloneResult u targetPath with
    | .ok _ => .ok ()
    | .error e => .error (classifyClone targetPath e branch))

/-! ## Asynchronous executor (src/utils/git_thread.py)

`GitThread.run` is embedded as a pure function from the configured operation,
the optional manager, the backend oracle and the parameter bag to the list of
Qt signals it emits, in emission order.  Totality of the function is the
"never raises to its caller" guarantee: every branch, including every
backend failure, ends in an `operationFinished` emission. -/

/-- A Qt signal emission of `GitThread`. -/
inductive GTEvent where
  | started (op : List Char)
  | finished (success : Bool) (op : List Char) (msg : List Char)
  | progress (percent : Nat) (desc : List Char)
deriving DecidableEq

/-- The `**params` bag handed to `GitThread.setup`; `none` models an absent
key, so `params.get(k, default)` becomes `getD`. -/
structure GitParams where
  remote_name : Option (List Char) := none
  branch : Option (List Char) := none
  set_upstream : Option Bool := none
  file_paths : Option (List (List Char)) := none
  message : Option (List Char) := none
  initial_branch : Option (List Char) := none
  path : Option (List Char) := none
  url : Option (List Char) := none
  target_path : Option (List Char) := none
  recursive : Option Bool := none
deriving Inhabited

/-- The dispatch body of `GitThread.run` (lines 44-99): one branch per
operation name, each calling the corresponding `GitManager` method and
producing the terminal `operationFinished` emission. -/
def GitThread.dispatch (op : List Char) (st : RepoState) (be : GitBackend)
    (fs : FSView) (params : GitParams) : List GTEvent :=
  if op = pys "pull" then
    let remote := params.remote_name.getD (pys "origin")
    match GitManager.pull st be remote params.branch with
    | (_, .ok _) => [.finished true op (pys "已从 " ++ remote ++ pys " 成功拉取更新")]
    | (_, .error e) => [.finished false op e]
  else if op = pys "push" then
    let remote := params.remote_name.getD (pys "origin")
    match GitManager.push st be remote params.branch (params.set_upstream.getD false) with
    | (_, .ok _) => [.finished true op (pys "已成功推送至 " ++ remote)]
    | (_, .error e) => [.finished false op e]
  else if op = pys "fetch" then
    let remote := params.remote_name.getD (pys "origin")
    match GitManager.fetch st be remote with
    | (_, .ok _) => [.finished true op (pys "已从 " ++ remote ++ pys " 获取最新更改")]
    | (_, .error e) => [.finished false op e]
  else if op = pys "commit" then
    let message := params.message.getD (pys "提交更改")
    match GitManager.commit st be (params.file_paths.getD []) message with
    | (_, .ok _) => [.finished true op (pys "已成功提交更改: " ++ message)]
    | (_, .error e) => [.finished false op e]
  else if op = pys "sync" then
    let remote := params.remote_name.getD (pys "origin")
    match GitManager.syncWithRemote st be remote params.branch with
    | (_, .ok _) => [.finished true op (pys "已与 " ++ remote ++ pys " 同步完成")]
    | (_, .error e) => [.finished false op e]
  else if op = pys "init" then
    let path := params.path.getD []
    match GitManager.initRepository be fs (params.initial_branch.getD (pys "main")) with
    | (_, .ok _) => [.finished true op (pys "已在 " ++ path ++ pys " 初始化仓库")]
    | (_, .error e) => [.finished false op e]
  else if op = pys "clone" then
    let target := params.target_path.getD []
    match GitManager.cloneRepository be (params.url.getD []) target params.branch with
    | (_, .ok _) => [.finished true op (pys "已克隆仓库至 " ++ target)]
    | (_, .error e) => [.finished false op e]
  else
    [.finished false op (pys "未知的Git操作: " ++ op)]

/-- `GitThread.run` (lines 33-106).  A falsy operation (`None` or `""`,
modelled as `[]`) or a missing manager yields the placeholder failure
emission; otherwise `operationStarted` is emitted and the dispatch runs with
every manager exception converted to a `finished(False, op, str(e))`
emission. -/
def GitThread.run (op : List Char) (gm : Option RepoState) (be : GitBackend)
    (fs : FSView) (params : GitParams) : List GTEvent :=
  match gm, op with
  | none, _ => [.finished false (pys "未知操作") (pys "未设置操作或GitManager")]
  | some _, [] => [.finished false (pys "未知操作") (pys "未设置操作或GitManager")]
  | some st, c :: rest => .started (c :: rest) :: GitThread.dispatch (c :: rest) st be fs params

/-! ## OAuth callback listener (src/utils/oauth_handler.py)

`OAuthCallbackHandler.do_GET` is embedded as a function from the parsed
request (`urlparse`/`parse_qs` are stdlib) to the HTTP status it answers
with and the list of session resolutions (`self.server.github_callback` /
`gitlab_callback` invocations, which deliver the result to the waiting
caller) it performs. -/

/-- A parsed inbound HTTP GET request: the path and the `parse_qs` result. -/
structure HttpRequest where
  path : List Char
  query : List (List Char × List (List Char))

/-- `key in query` on a `parse_qs` dictionary. -/
def queryHas (q : List (List Char × List (List Char))) (k : List Char) : Bool :=
  q.any (fun kv => kv.1 == k)

/-- `query[key][0]` on a `parse_qs` dictionary (callers guard presence). -/
def queryFirst (q : List (List Char × List (List Char))) (k : List Char) : List Char :=
  match q.find? (fun kv => kv.1 == k) with
  | some kv => kv.2.headD []
  | none => []

/-- A resolution delivered to the waiting caller. -/
inductive OAuthEvent where
  | githubCallback (code : List Char)
  | gitlabCallback (code : List Char)
deriving DecidableEq

/-- `OAuthCallbackHandler.do_GET` (lines 51-175): on `/github/callback`
or `/gitlab/callback` with a `code` parameter answer 200 and invoke the
corresponding server callback; without a `code` answer 400 (and invoke
nothing); any other path answers 404. -/
def OAuthCallbackHandler.do_GET (req : HttpRequest) : Nat × List OAuthEvent :=
  if req.path = pys "/github/callback" then
    if queryHas req.query (pys "code") then
      (200, [.githubCallback (queryFirst req.query (pys "code"))])
    else
      (400, [])
  else if req.path = pys "/gitlab/callback" then
    if queryHas req.query (pys "code") then
      (200, [.gitlabCallback (queryFirst req.query (pys "code"))])
    else
      (400, [])
  else
    (404, [])

/-! ## String toolkit lemmas -/

/-- `isPrefixOf` agrees with the prefix order. -/
lemma isPrefixOf_eq {p s : List Char} : p.isPrefixOf s = true ↔ p <+: s := by
  exact List.isPrefixOf_iff_prefix

/-- Occurrence characterisation of the substring test. -/
lemma containsSub_iff {p s : List Char} :
    containsSub p s = true ↔ ∃ a b, s = a ++ p ++ b := by
  induction s with
  | nil =>
    simp only [containsSub, List.isEmpty_iff]
    constructor
    · rintro rfl
      exact ⟨[], [], rfl⟩
    · rintro ⟨a, b, h⟩
      rcases List.append_eq_nil.mp h.symm with ⟨h1, -⟩
      exact (List.append_eq_nil.mp h1).2
  | cons c r ih =>
    simp only [containsSub, Bool.or_eq_true, ih]
    constructor
    · rintro (h | ⟨a, b, rfl⟩)
      · rcases isPrefixOf_eq.mp h with ⟨t, ht⟩
        exact ⟨[], t, by simp [ht.symm]⟩
      · exact ⟨c :: a, b, by simp⟩
    · rintro ⟨a, b, h⟩
      cases a with
      | nil =>
        left
        exact isPrefixOf_eq.mpr ⟨b, by simpa using h.symm⟩
      | cons a' as =>
        right
        have h' : c = a' ∧ r = as ++ (p ++ b) := by simpa using h
        exact ⟨as, b, by simp [h'.2]⟩
    
/-- A substring occurrence of `p ++ q` yields one of `p`. -/
lemma containsSub_of_append_left {p q s : List Char}
    (h : containsSub (p ++ q) s = true) : containsSub p s = true := by
  rcases containsSub_iff.mp h with ⟨a, b, rfl⟩
  exact containsSub_iff.mpr ⟨a, q ++ b, by simp⟩

/-- Single-character substring test is membership. -/
lemma containsSub_singleton {c : Char} {s : List Char} :
    containsSub [c] s = true ↔ c ∈ s := by
  rw [containsSub_iff]
  constructor
  · rintro ⟨a, b, rfl⟩
    simp
  · intro h
    rcases List.append_of_mem h with ⟨x, y, rfl⟩
    exact ⟨x, y, by simp⟩

/-- `replace` is the identity when the pattern does not occur. -/
lemma pyReplaceF_of_not_contains {p q : List Char} :
    ∀ (f : Nat) (s : List Char), containsSub p s = false → s.length ≤ f →
      pyReplaceF q p f s = s := by
  intro f
  induction f with
  | zero =>
    intro s h hl
    cases s with
    | nil => rfl
    | cons c r => simp at hl
  | succ f ih =>
    intro s h hl
    cases s with
    | nil => rfl
    | cons c r =>
      simp only [containsSub, Bool.or_eq_false_iff] at h
      simp only [pyReplaceF, h.1, and_false, if_false]
      rw [if_neg (by simp [h.1])]
      rw [ih r h.2 (by simpa using Nat.le_of_succ_le_succ hl)]

/-- `pyReplace` is the identity when the pattern does not occur. -/
lemma pyReplace_of_not_contains {p q s : List Char}
    (h : containsSub p s = false) : pyReplace p q s = s :=
  pyReplaceF_of_not_contains s.length s h le_rfl

/-- `split` returns the whole string when the separator does not occur. -/
lemma pySplitF_of_not_contains {p : List Char} :
    ∀ (f : Nat) (s : List Char), containsSub p s = false → s.length ≤ f →
      pySplitF p f s = [s] := by
  intro f
  induction f with
  | zero =>
    intro s h hl
    cases s with
    | nil => rfl
    | cons c r => simp at hl
  | succ f ih =>
    intro s h hl
    cases s with
    | nil => rfl
    | cons c r =>
      simp only [containsSub, Bool.or_eq_false_iff] at h
      simp only [pySplitF]
      rw [if_neg (by simp [h.1])]
      rw [ih r h.2 (by simpa using Nat.le_of_succ_le_succ hl)]

/-- `pySplit` returns the whole string when the separator does not occur. -/
lemma pySplit_of_not_contains {p s : List Char}
    (h : containsSub p s = false) : pySplit p s = [s] :=
  pySplitF_of_not_contains s.length s h le_rfl

/-- A string with a unique colon decomposes uniquely around it. -/
lemma single_colon_eq :
    ∀ {A X B Y : List Char}, ':' ∉ A → ':' ∉ X →
      A ++ ':' :: B = X ++ ':' :: Y → A = X ∧ B = Y := by
  intro A
  induction A with
  | nil =>
    intro X B Y _ hX h
    cases X with
    | nil =>
      simp only [List.nil_append] at h
      exact ⟨rfl, by injection h⟩
    | cons x xs =>
      simp only [List.nil_append, List.cons_append] at h
      have : ':' = x := by injection h
      exact absurd (this ▸ List.mem_cons_self x xs) hX
  | cons a as ih =>
    intro X B Y hA hX h
    cases X with
    | nil =>
      simp only [List.cons_append, List.nil_append] at h
      have : a = ':' := by injection h
      exact absurd (by rw [this]; exact List.mem_cons_self ':' as) hA
    | cons x xs =>
      simp only [List.cons_append] at h
      have h1 : a = x := by injection h
      have h2 : as ++ ':' :: B = xs ++ ':' :: Y := by injection h
      have hA' : ':' ∉ as := fun hm => hA (List.mem_cons_of_mem a hm)
      have hX' : ':' ∉ xs := fun hm => hX (List.mem_cons_of_mem x hm)
      rcases ih hA' hX' h2 with ⟨e1, e2⟩
      exact ⟨by rw [h1, e1], e2⟩

/-- In a string whose only colon separates `A` from `B`, a pattern whose
colon sits after a segment longer than `A` cannot occur. -/
lemma not_contains_of_single_colon {p₁ p₂ A B : List Char}
    (hp₂ : ':' ∉ p₂) (hA : ':' ∉ A) (hB : ':' ∉ B)
    (hlen : A.length < p₁.length) :
    containsSub (p₁ ++ ':' :: p₂) (A ++ ':' :: B) = false := by
  by_contra hcon
  have h : containsSub (p₁ ++ ':' :: p₂) (A ++ ':' :: B) = true := by
    revert hcon
    cases containsSub (p₁ ++ ':' :: p₂) (A ++ ':' :: B) <;> simp
  rcases containsSub_iff.mp h with ⟨a, b, hs⟩
  have hcnt : List.count ':' (A ++ ':' :: B) =
      List.count ':' (a ++ (p₁ ++ ':' :: p₂) ++ b) := by rw [hs]
  have hzA : List.count ':' A = 0 := List.count_eq_zero.mpr hA
  have hzB : List.count ':' B = 0 := List.count_eq_zero.mpr hB
  have hzp₂ : List.count ':' p₂ = 0 := List.count_eq_zero.mpr hp₂
  have hza : List.count ':' a = 0 ∧ List.count ':' p₁ = 0 := by
    simp only [List.count_append, List.count_cons, hzA, hzB, hzp₂] at hcnt
    simp at hcnt
    omega
  have hs' : A ++ ':' :: B = (a ++ p₁) ++ ':' :: (p₂ ++ b) := by
    rw [hs]
    simp
  rcases single_colon_eq hA
      (by
        intro hm
        rcases List.mem_append.mp hm with hm | hm
        · exact (List.count_eq_zero.mp hza.1) hm
        · exact (List.count_eq_zero.mp hza.2) hm) hs' with ⟨e1, -⟩
  have : A.length = a.length + p₁.length := by rw [e1]; simp
  omega

/-- In a string whose only colon separates `A` from `B`, a pattern starting
with the colon occurs only if its tail is a prefix of `B`. -/
lemma not_contains_colon_first {p₂ A B : List Char}
    (hp₂ : ':' ∉ p₂) (hA : ':' ∉ A) (hB : ':' ∉ B)
    (h : ¬ p₂ <+: B) :
    containsSub (':' :: p₂) (A ++ ':' :: B) = false := by
  by_contra hcon
  have hc : containsSub (':' :: p₂) (A ++ ':' :: B) = true := by
    revert hcon
    cases containsSub (':' :: p₂) (A ++ ':' :: B) <;> simp
  rcases containsSub_iff.mp hc with ⟨a, b, hs⟩
  have hzB : List.count ':' B = 0 := List.count_eq_zero.mpr hB
  have hzp₂ : List.count ':' p₂ = 0 := List.count_eq_zero.mpr hp₂
  have hza : List.count ':' a = 0 := by
    have hcnt : List.count ':' (A ++ ':' :: B) =
        List.count ':' (a ++ (':' :: p₂) ++ b) := by rw [hs]
    simp only [List.count_append, List.count_cons, List.count_eq_zero.mpr hA,
      hzB, hzp₂] at hcnt
    simp at hcnt
    omega
  have hs' : A ++ ':' :: B = a ++ ':' :: (p₂ ++ b) := by
    rw [hs]
    simp
  rcases single_colon_eq hA (List.count_eq_zero.mp hza) hs' with ⟨-, e2⟩
  exact h ⟨b, e2.symm⟩

/-- Splitting on `":"` a string with a unique colon. -/
lemma pySplitF_colon {A B : List Char} (hA : ':' ∉ A) (hB : ':' ∉ B) :
    ∀ f, A.length + B.length + 1 ≤ f →
      pySplitF [':'] f (A ++ ':' :: B) = [A, B] := by
  induction A with
  | nil =>
    intro f hf
    cases f with
    | zero => omega
    | succ f =>
      simp only [List.nil_append, pySplitF]
      rw [if_pos (by simp)]
      simp only [List.length_singleton, Nat.sub_self, List.drop_zero]
      rw [pySplitF_of_not_contains f B
        (by
          cases hcb : containsSub [':'] B with
          | false => rfl
          | true => exact absurd (containsSub_singleton.mp hcb) hB)
        (by simp at hf; omega)]
  | cons a as ih =>
    intro f hf
    cases f with
    | zero => simp at hf
    | succ f =>
      have ha : a ≠ ':' := fun h => hA (h ▸ List.mem_cons_self a as)
      simp only [List.cons_append, pySplitF]
      rw [if_neg (by simp [List.isPrefixOf]; intro h; exact absurd h.symm ha)]
      simp only [List.append_eq]
      rw [ih (fun hm => hA (List.mem_cons_of_mem a hm)) f (by simp at hf ⊢; omega)]

/-- `pySplit ":"` on a string with a unique colon. -/
lemma pySplit_colon {A B : List Char} (hA : ':' ∉ A) (hB : ':' ∉ B) :
    pySplit [':'] (A ++ ':' :: B) = [A, B] :=
  pySplitF_colon hA hB _ (by simp; omega)

/-- `dropWhile` is idempotent. -/
lemma dropWhile_self (p : Char → Bool) (l : List Char) :
    (l.dropWhile p).dropWhile p = l.dropWhile p := by
  induction l with
  | nil => rfl
  | cons c r ih =>
    by_cases h : p c = true
    · simp [List.dropWhile_cons, h, ih]
    · simp [List.dropWhile_cons, h]

/-- Stripping is idempotent on strings whose strip result starts with a
non-whitespace character. -/
lemma pyStrip_strip_of_head {u : List Char}
    (h : List.dropWhile isSpacePy (pyStrip u) = pyStrip u) :
    pyStrip (pyStrip u) = pyStrip u := by
  have hrev : (pyStrip u).reverse =
      List.dropWhile isSpacePy ((List.dropWhile isSpacePy u).reverse) := by
    rw [pyStrip, List.reverse_reverse]
  calc pyStrip (pyStrip u)
      = ((List.dropWhile isSpacePy (pyStrip u)).reverse.dropWhile isSpacePy).reverse := rfl
    _ = ((pyStrip u).reverse.dropWhile isSpacePy).reverse := by rw [h]
    _ = ((List.dropWhile isSpacePy
          ((List.dropWhile isSpacePy u).reverse)).dropWhile isSpacePy).reverse := by
        rw [hrev]
    _ = (List.dropWhile isSpacePy ((List.dropWhile isSpacePy u).reverse)).reverse := by
        rw [dropWhile_self]
    _ = pyStrip u := rfl

/-- A list starting with a non-whitespace character is `dropWhile`-fixed. -/
lemma dropWhile_cons_of_neg {c : Char} {r : List Char} (h : isSpacePy c = false) :
    List.dropWhile isSpacePy (c :: r) = c :: r := by
  simp [List.dropWhile_cons, h]

/-- A prefix of `a` is a prefix of `a ++ b`. -/
lemma isPrefixOf_append_of {p a : List Char} (b : List Char)
    (h : p.isPrefixOf a = true) : p.isPrefixOf (a ++ b) = true := by
  rcases isPrefixOf_eq.mp h with ⟨t, rfl⟩
  exact isPrefixOf_eq.mpr ⟨t ++ b, by simp⟩

/-- Every list ends with itself appended. -/
lemma pyEndsWith_append_self (p x : List Char) : pyEndsWith p (x ++ p) = true := by
  rw [pyEndsWith, List.reverse_append]
  exact isPrefixOf_eq.mpr ⟨x.reverse, rfl⟩

/-- The expanded shorthand URL is strip-fixed. -/
lemma pyStrip_fix_expanded (v : List Char) :
    pyStrip (pys "https://github.com/" ++ v ++ pys ".git") =
      pys "https://github.com/" ++ v ++ pys ".git" := by
  have hcons : pys "https://github.com/" ++ v ++ pys ".git" =
      'h' :: (pys "ttps://github.com/" ++ v ++ pys ".git") := by
    have : pys "https://github.com/" = 'h' :: pys "ttps://github.com/" := by decide
    rw [this]
    simp
  have hrev : (pys "https://github.com/" ++ v ++ pys ".git").reverse =
      't' :: ('i' :: 'g' :: '.' :: (v.reverse ++ (pys "https://github.com/").reverse)) := by
    rw [List.reverse_append, List.reverse_append]
    have : (pys ".git").reverse = 't' :: 'i' :: 'g' :: '.' :: [] := by decide
    rw [this]
    simp
  rw [pyStrip]
  rw [hcons, dropWhile_cons_of_neg (by decide), ← hcons, hrev,
    dropWhile_cons_of_neg (by decide), ← hrev, List.reverse_reverse]

/-- Single-character substring test fails without membership. -/
lemma containsSub_false_of_not_mem {c : Char} {s : List Char} (h : c ∉ s) :
    containsSub [c] s = false := by
  cases hc : containsSub [c] s with
  | false => rfl
  | true => exact absurd (containsSub_singleton.mp hc) h

/-- If `p` does not occur, neither does any extension `p ++ q`. -/
lemma contains_false_mono {p q s : List Char} (h : containsSub p s = false) :
    containsSub (p ++ q) s = false := by
  cases hc : containsSub (p ++ q) s with
  | false => rfl
  | true => rw [containsSub_of_append_left hc] at h; cases h

/-- The five post-shorthand repair stages leave an expanded
`https://github.com/<v>.git` URL untouched when `v` is free of colons and
full-width parentheses. -/
lemma stagesFix_expanded (v : List Char)
    (hv : ':' ∉ v) (hq1 : '（' ∉ v) (hq2 : '）' ∉ v) :
    gitSuffixStage (parenStage (colonStage (ghStage (heStage
      (pys "https://github.com/" ++ v ++ pys ".git"))))) =
    pys "https://github.com/" ++ v ++ pys ".git" := by
  have hu : pys "https://github.com/" ++ v ++ pys ".git" =
      pys "https" ++ ':' :: (pys "//github.com/" ++ v ++ pys ".git") := by
    rw [show pys "https://github.com/" =
        pys "https" ++ ':' :: pys "//github.com/" from by decide]
    simp
  have hB : ':' ∉ pys "//github.com/" ++ v ++ pys ".git" := by
    intro hm
    rcases List.mem_append.mp hm with hm1 | hm1
    · rcases List.mem_append.mp hm1 with hm2 | hm2
      · exact absurd hm2 (by decide)
      · exact absurd hm2 hv
    · exact absurd hm1 (by decide)
  have hHe : containsSub (pys "github.com:HeDass-OF")
      (pys "https://github.com/" ++ v ++ pys ".git") = false := by
    rw [hu, show pys "github.com:HeDass-OF" =
        pys "github.com" ++ ':' :: pys "HeDass-OF" from by decide]
    exact not_contains_of_single_colon (by decide) (by decide) hB (by decide)
  have hS1 : containsSub (pys "github.com:/")
      (pys "https://github.com/" ++ v ++ pys ".git") = false := by
    rw [hu, show pys "github.com:/" = pys "github.com" ++ ':' :: pys "/" from by decide]
    exact not_contains_of_single_colon (by decide) (by decide) hB (by decide)
  have hS2 : containsSub (pys "github.com://")
      (pys "https://github.com/" ++ v ++ pys ".git") = false := by
    rw [hu, show pys "github.com://" = pys "github.com" ++ ':' :: pys "//" from by decide]
    exact not_contains_of_single_colon (by decide) (by decide) hB (by decide)
  have hS3 : containsSub (pys "github.com:///")
      (pys "https://github.com/" ++ v ++ pys ".git") = false := by
    rw [hu, show pys "github.com:///" = pys "github.com" ++ ':' :: pys "///" from by decide]
    exact not_contains_of_single_colon (by decide) (by decide) hB (by decide)
  have hGc : containsSub (pys "github.com:")
      (pys "https://github.com/" ++ v ++ pys ".git") = false := by
    rw [hu, show pys "github.com:" = pys "github.com" ++ ':' :: ([] : List Char)
      from by decide]
    exact not_contains_of_single_colon (by decide) (by decide) hB (by decide)
  have hCg : containsSub (pys ":github.com")
      (pys "https://github.com/" ++ v ++ pys ".git") = false := by
    rw [hu, show pys ":github.com" = ':' :: pys "github.com" from by decide]
    refine not_contains_colon_first (by decide) (by decide) hB ?_
    rintro ⟨t, ht⟩
    rw [show pys "github.com" = 'g' :: pys "ithub.com" from by decide,
      show pys "//github.com/" = '/' :: pys "/github.com/" from by decide] at ht
    simp only [List.cons_append, List.append_assoc] at ht
    exact absurd (by injection ht) (by decide : ¬ ('g' = '/'))
  have hP1 : containsSub (pys "（")
      (pys "https://github.com/" ++ v ++ pys ".git") = false := by
    rw [show pys "（" = ['（'] from by decide]
    refine containsSub_false_of_not_mem ?_
    intro hm
    rcases List.mem_append.mp hm with hm1 | hm1
    · rcases List.mem_append.mp hm1 with hm2 | hm2
      · exact absurd hm2 (by decide)
      · exact absurd hm2 hq1
    · exact absurd hm1 (by decide)
  have hP2 : containsSub (pys "）")
      (pys "https://github.com/" ++ v ++ pys ".git") = false := by
    rw [show pys "）" = ['）'] from by decide]
    refine containsSub_false_of_not_mem ?_
    intro hm
    rcases List.mem_append.mp hm with hm1 | hm1
    · rcases List.mem_append.mp hm1 with hm2 | hm2
      · exact absurd hm2 (by decide)
      · exact absurd hm2 hq2
    · exact absurd hm1 (by decide)
  have hEnd : pyEndsWith (pys ".git")
      (pys "https://github.com/" ++ v ++ pys ".git") = true :=
    pyEndsWith_append_self _ _
  have hGat : (pys "git@").isPrefixOf
      (pys "https://github.com/" ++ v ++ pys ".git") = false := by
    cases hc : (pys "git@").isPrefixOf (pys "https://github.com/" ++ v ++ pys ".git") with
    | false => rfl
    | true =>
      exfalso
      rcases isPrefixOf_eq.mp hc with ⟨t, ht⟩
      rw [show pys "git@" = 'g' :: pys "it@" from by decide,
        show pys "https://github.com/" = 'h' :: pys "ttps://github.com/" from by decide] at ht
      simp only [List.cons_append, List.append_assoc] at ht
      exact absurd (by injection ht) (by decide : ¬ ('g' = 'h'))
  have hCol : containsSub (pys ":")
      (pys "https://github.com/" ++ v ++ pys ".git") = true := by
    rw [hu, show pys ":" = [':'] from by decide]
    exact containsSub_singleton.mpr (List.mem_append.mpr (Or.inr (List.mem_cons_self _ _)))
  have hSplit : pySplit (pys ":")
      (pys "https://github.com/" ++ v ++ pys ".git") =
      [pys "https", pys "//github.com/" ++ v ++ pys ".git"] := by
    rw [hu, show pys ":" = [':'] from by decide]
    exact pySplit_colon (by decide) hB
  have eHe : heStage (pys "https://github.com/" ++ v ++ pys ".git") =
      pys "https://github.com/" ++ v ++ pys ".git" := by
    simp only [heStage, hHe]
    simp
  have eGh : ghStage (pys "https://github.com/" ++ v ++ pys ".git") =
      pys "https://github.com/" ++ v ++ pys ".git" := by
    simp only [ghStage, pyReplace_of_not_contains hS1, pyReplace_of_not_contains hS2,
      pyReplace_of_not_contains hS3, hCg, hGc, Bool.false_eq_true, false_and, and_false,
      if_false, ite_self]
  have eCol : colonStage (pys "https://github.com/" ++ v ++ pys ".git") =
      pys "https://github.com/" ++ v ++ pys ".git" := by
    simp only [colonStage, hCol, hGat, hSplit]
    simp [show pyEndsWith (pys "//") (pys "https") = false from by decide,
      show pySplit (pys "//") (pys "https") = [pys "https"] from by decide]
  have ePar : parenStage (pys "https://github.com/" ++ v ++ pys ".git") =
      pys "https://github.com/" ++ v ++ pys ".git" := by
    rw [parenStage, pyReplace_of_not_contains hP1, pyReplace_of_not_contains hP2]
  have eSuf : gitSuffixStage (pys "https://github.com/" ++ v ++ pys ".git") =
      pys "https://github.com/" ++ v ++ pys ".git" := by
    simp only [gitSuffixStage, hEnd]
    simp
  rw [eHe, eGh, eCol, ePar, eSuf]

/-- Single-character non-containment gives non-membership. -/
lemma not_mem_of_contains_false {c : Char} {s : List Char}
    (h : containsSub [c] s = false) : c ∉ s := by
  intro hm
  rw [containsSub_singleton.mpr hm] at h
  cases h

/-- The whole pipeline expands a trimmed `owner/repo` shorthand (exactly one
slash, no `http`/`git@` prefix, no colon, no full-width parentheses). -/
lemma pipeline_shorthand (v : List Char)
    (hs1 : (pys "http").isPrefixOf v = false)
    (hs2 : (pys "git@").isPrefixOf v = false)
    (hc : pyCount (pys "/") v = 1)
    (hv : containsSub (pys ":") v = false)
    (hq1 : containsSub (pys "（") v = false)
    (hq2 : containsSub (pys "）") v = false) :
    gitSuffixStage (parenStage (colonStage (ghStage (heStage (shStage v))))) =
      pys "https://github.com/" ++ v ++ pys ".git" := by
  have hsl : containsSub (pys "/") v = true := by
    cases hcc : containsSub (pys "/") v with
    | true => rfl
    | false =>
      exfalso
      rw [pyCount, pySplit_of_not_contains hcc] at hc
      simp at hc
  have hsh : shStage v = pys "https://github.com/" ++ v ++ pys ".git" := by
    simp only [shStage, hs1, hs2, hsl, hc]
    simp
  rw [hsh]
  exact stagesFix_expanded v
    (not_mem_of_contains_false (by rw [show ([':'] : List Char) = pys ":" from by decide]; exact hv))
    (not_mem_of_contains_false (by rw [show (['（'] : List Char) = pys "（" from by decide]; exact hq1))
    (not_mem_of_contains_false (by rw [show (['）'] : List Char) = pys "）" from by decide]; exact hq2))

/-- The whole pipeline leaves a trimmed `git@` URL untouched when it does not
contain `github.com` or full-width parentheses. -/
lemma pipeline_ssh (v : List Char)
    (h1 : (pys "git@").isPrefixOf v = true)
    (h2 : containsSub (pys "github.com") v = false)
    (hq1 : containsSub (pys "（") v = false)
    (hq2 : containsSub (pys "）") v = false) :
    gitSuffixStage (parenStage (colonStage (ghStage (heStage (shStage v))))) = v := by
  have eSh : shStage v = v := by
    simp only [shStage, h1]
    simp
  have hHe : containsSub (pys "github.com:HeDass-OF") v = false := by
    have hm := contains_false_mono (q := pys ":HeDass-OF") h2
    rwa [show pys "github.com" ++ pys ":HeDass-OF" = pys "github.com:HeDass-OF"
      from by decide] at hm
  have eHe : heStage v = v := by
    simp only [heStage, hHe]
    simp
  have eGh : ghStage v = v := by
    simp only [ghStage, h2]
    simp
  have eCol : colonStage v = v := by
    simp only [colonStage, h1]
    simp
  have ePar : parenStage v = v := by
    rw [parenStage, pyReplace_of_not_contains hq1, pyReplace_of_not_contains hq2]
  have eSuf : gitSuffixStage v = v := by
    simp only [gitSuffixStage, h2]
    simp
  rw [eSh, eHe, eGh, eCol, ePar, eSuf]

/-- `sanitize_url` on a string whose trimmed form is an SSH `git@` URL free of
`github.com` and full-width parentheses only trims it. -/
lemma sanitize_ssh_eq (u : List Char)
    (h1 : (pys "git@").isPrefixOf (pyStrip u) = true)
    (h2 : containsSub (pys "github.com") (pyStrip u) = false)
    (h3 : containsSub (pys "（") (pyStrip u) = false)
    (h4 : containsSub (pys "）") (pyStrip u) = false) :
    sanitize_url u = pyStrip u := by
  unfold sanitize_url
  exact pipeline_ssh (pyStrip u) h1 h2 h3 h4

/-- `sanitize_url` expands a trimmed shorthand input to
`https://github.com/<value>.git`. -/
lemma sanitize_shorthand_eq (u : List Char)
    (hs1 : (pys "http").isPrefixOf (pyStrip u) = false)
    (hs2 : (pys "git@").isPrefixOf (pyStrip u) = false)
    (hc : pyCount (pys "/") (pyStrip u) = 1)
    (hv : containsSub (pys ":") (pyStrip u) = false)
    (hq1 : containsSub (pys "（") (pyStrip u) = false)
    (hq2 : containsSub (pys "）") (pyStrip u) = false) :
    sanitize_url u = pys "https://github.com/" ++ pyStrip u ++ pys ".git" := by
  unfold sanitize_url
  exact pipeline_shorthand (pyStrip u) hs1 hs2 hc hv hq1 hq2

/-- An expanded `https://github.com/<v>.git` URL is a `sanitize_url` fixed
point when `v` is free of colons and full-width parentheses. -/
lemma sanitize_fix_expanded (v : List Char)
    (hv : ':' ∉ v) (hq1 : '（' ∉ v) (hq2 : '）' ∉ v) :
    sanitize_url (pys "https://github.com/" ++ v ++ pys ".git") =
      pys "https://github.com/" ++ v ++ pys ".git" := by
  unfold sanitize_url
  rw [pyStrip_fix_expanded]
  have eSh : shStage (pys "https://github.com/" ++ v ++ pys ".git") =
      pys "https://github.com/" ++ v ++ pys ".git" := by
    have hHttp : (pys "http").isPrefixOf
        (pys "https://github.com/" ++ v ++ pys ".git") = true :=
      isPrefixOf_append_of _ (isPrefixOf_append_of _ (by decide))
    simp only [shStage, hHttp]
    simp
  rw [eSh]
  exact stagesFix_expanded v hv hq1 hq2

/-! ## Claim theorems: URL normalizer (C1, C2, C8) -/

/-- C1 counterexample: the URL normalizer is not idempotent.  For
`u = "github.com:HeDass-OF"` the first pass yields the scheme-less
`github.com/HeDass-OF.git`, which the second pass re-expands as an
`owner/repo` shorthand to
`https://github.com/github.com/HeDass-OF.git.git`. -/
theorem c1_counterexample :
    sanitize_url (sanitize_url (pys "github.com:HeDass-OF")) ≠
      sanitize_url (pys "github.com:HeDass-OF") := by decide

/-- C1 (amended): `sanitize_url` is idempotent on every input whose trimmed
form is either an SSH `git@` URL containing neither `github.com` nor a
full-width parenthesis, or an `owner/repo` shorthand (exactly one `/`, no
`http`/`git@` prefix, no colon, no full-width parenthesis); it is not
idempotent on arbitrary strings. -/
theorem c1_amended (u : List Char)
    (h : ((pys "git@").isPrefixOf (pyStrip u) = true ∧
          containsSub (pys "github.com") (pyStrip u) = false ∧
          containsSub (pys "（") (pyStrip u) = false ∧
          containsSub (pys "）") (pyStrip u) = false) ∨
         ((pys "http").isPrefixOf (pyStrip u) = false ∧
          (pys "git@").isPrefixOf (pyStrip u) = false ∧
          pyCount (pys "/") (pyStrip u) = 1 ∧
          containsSub (pys ":") (pyStrip u) = false ∧
          containsSub (pys "（") (pyStrip u) = false ∧
          containsSub (pys "）") (pyStrip u) = false)) :
    sanitize_url (sanitize_url u) = sanitize_url u := by
  rcases h with ⟨h1, h2, h3, h4⟩ | ⟨h1, h2, h3, h4, h5, h6⟩
  · rw [sanitize_ssh_eq u h1 h2 h3 h4]
    have hfix : pyStrip (pyStrip u) = pyStrip u := by
      apply pyStrip_strip_of_head
      rcases isPrefixOf_eq.mp h1 with ⟨t, ht⟩
      rw [← ht, show pys "git@" = 'g' :: pys "it@" from by decide]
      simp only [List.cons_append]
      exact dropWhile_cons_of_neg (by decide)
    unfold sanitize_url
    rw [hfix]
    exact pipeline_ssh (pyStrip u) h1 h2 h3 h4
  · rw [sanitize_shorthand_eq u h1 h2 h3 h4 h5 h6]
    exact sanitize_fix_expanded (pyStrip u)
      (not_mem_of_contains_false
        (by rw [show ([':'] : List Char) = pys ":" from by decide]; exact h4))
      (not_mem_of_contains_false
        (by rw [show (['（'] : List Char) = pys "（" from by decide]; exact h5))
      (not_mem_of_contains_false
        (by rw [show (['）'] : List Char) = pys "）" from by decide]; exact h6))

/-- C1 witness: idempotence instance on a concrete SSH URL obtained from the
amended theorem. -/
theorem c1_witness :
    sanitize_url (sanitize_url (pys "  git@gitlab.com:group/project.git ")) =
      sanitize_url (pys "  git@gitlab.com:group/project.git ") :=
  c1_amended _ (Or.inl ⟨by decide, by decide, by decide, by decide⟩)

/-- C2 counterexample: an SSH `git@` URL is mutated beyond trimming — the
already-trimmed `git@github.com:a/b` gains a `.git` suffix because it
contains `github.com`. -/
theorem c2_counterexample :
    (pys "git@").isPrefixOf (pyStrip (pys "git@github.com:a/b")) = true ∧
    sanitize_url (pys "git@github.com:a/b") ≠ pyStrip (pys "git@github.com:a/b") := by
  decide

/-- C2 (amended): a `git@`-style input that does not contain `github.com`
and holds no full-width parenthesis is returned exactly as trimmed. -/
theorem c2_amended (u : List Char)
    (h1 : (pys "git@").isPrefixOf (pyStrip u) = true)
    (h2 : containsSub (pys "github.com") (pyStrip u) = false)
    (h3 : containsSub (pys "（") (pyStrip u) = false)
    (h4 : containsSub (pys "）") (pyStrip u) = false) :
    sanitize_url u = pyStrip u :=
  sanitize_ssh_eq u h1 h2 h3 h4

/-- C2 witness: concrete instance of the amended theorem. -/
theorem c2_witness :
    sanitize_url (pys "  git@gitlab.com:group/project.git  ") =
      pyStrip (pys "  git@gitlab.com:group/project.git  ") :=
  c2_amended _ (by decide) (by decide) (by decide) (by decide)

/-- C8 counterexample: an input with exactly one `/` and no scheme or `git@`
prefix whose expansion is NOT `https://github.com/<value>.git` — the colon in
`github.com:x/y` is rewritten afterwards by the `github.com:` repair. -/
theorem c8_counterexample :
    pyCount (pys "/") (pyStrip (pys "github.com:x/y")) = 1 ∧
    (pys "http").isPrefixOf (pyStrip (pys "github.com:x/y")) = false ∧
    (pys "git@").isPrefixOf (pyStrip (pys "github.com:x/y")) = false ∧
    sanitize_url (pys "github.com:x/y") ≠
      pys "https://github.com/" ++ pyStrip (pys "github.com:x/y") ++ pys ".git" := by
  decide

/-- C8 (amended): for every trimmed input with exactly one `/`, no
`http`/`git@` prefix, no colon and no full-width parenthesis, the normalizer
returns `https://github.com/<value>.git`. -/
theorem c8_amended (u : List Char)
    (hs1 : (pys "http").isPrefixOf (pyStrip u) = false)
    (hs2 : (pys "git@").isPrefixOf (pyStrip u) = false)
    (hc : pyCount (pys "/") (pyStrip u) = 1)
    (hv : containsSub (pys ":") (pyStrip u) = false)
    (hq1 : containsSub (pys "（") (pyStrip u) = false)
    (hq2 : containsSub (pys "）") (pyStrip u) = false) :
    sanitize_url u = pys "https://github.com/" ++ pyStrip u ++ pys ".git" :=
  sanitize_shorthand_eq u hs1 hs2 hc hv hq1 hq2

/-- C8 witness: the spec's own shorthand example, via the amended theorem. -/
theorem c8_witness :
    sanitize_url (pys "octocat/Hello-World") =
      pys "https://github.com/" ++ pyStrip (pys "octocat/Hello-World") ++ pys ".git" :=
  c8_amended _ (by decide) (by decide) (by decide) (by decide) (by decide) (by decide)

/-! ## Claim theorems: repository handle (C3, C4, C5, C10) -/

/-- `true` exactly on a successful `Except` outcome. -/
def exceptOkB : Except (List Char) Unit → Bool
  | .ok _ => true
  | .error _ => false

/-- A concrete valid repository state shared by the witnesses. -/
def stSample : RepoState :=
  { valid := true
    repoPath := pys "/repo"
    currentBranch := pys "main"
    remotes := [(pys "origin", pys "https://github.com/a/b.git")] }

/-- A backend whose pull fails with an unreachable-host diagnostic. -/
def pullFailBackend : GitBackend :=
  { okBackend with pullResult := fun _ _ => .error (pys "could not resolve host github.com") }

/-- C3 counterexample: on a valid repository a blank commit message is not
rejected — `commit` stages the path and hands the blank message straight to
the backend, succeeding; no EmptyMessage-kind error is raised and the commit
is issued. -/
theorem c3_counterexample :
    pyStrip (pys "") = [] ∧
    GitManager.commit stSample okBackend [pys "file.md"] (pys "") =
      ([GitAction.gitAdd [pys "file.md"], GitAction.gitCommit (pys "")],
        Except.ok ()) := by
  exact ⟨rfl, rfl⟩

/-- C3 (amended): on a valid handle `commit` stages the requested paths and
then invokes the backend commit with the message exactly as given — a blank
message is not rejected by the handle, whose only failure modes are the
backend's. -/
theorem c3_amended (st : RepoState) (be : GitBackend) (paths : List (List Char))
    (msg : List Char) (hv : st.valid = true) (_hb : pyStrip msg = []) :
    (GitManager.commit st be paths msg).1 =
      (GitManager.stage st be paths).1 ++
        (if exceptOkB (GitManager.stage st be paths).2 then
          [GitAction.gitCommit msg] else []) ∧
    ((GitManager.stage st be paths).2 = .ok () →
      (GitManager.commit st be paths msg).2 = be.commitResult msg) := by
  unfold GitManager.commit
  rw [if_neg (by simp [hv])]
  rcases hstage : GitManager.stage st be paths with ⟨t, r⟩
  cases r with
  | ok v =>
    cases v
    exact ⟨by simp [exceptOkB], fun _ => rfl⟩
  | error e =>
    refine ⟨by simp [exceptOkB], fun hok => ?_⟩
    cases hok

/-- C3 witness: concrete instance of the amended theorem on a whitespace-only
message. -/
theorem c3_witness :
    (GitManager.commit stSample okBackend [pys "a.md"] (pys " ")).1 =
      (GitManager.stage stSample okBackend [pys "a.md"]).1 ++
        (if exceptOkB (GitManager.stage stSample okBackend [pys "a.md"]).2 then
          [GitAction.gitCommit (pys " ")] else []) ∧
    ((GitManager.stage stSample okBackend [pys "a.md"]).2 = .ok () →
      (GitManager.commit stSample okBackend [pys "a.md"] (pys " ")).2 =
        okBackend.commitResult (pys " ")) :=
  c3_amended stSample okBackend [pys "a.md"] (pys " ") (by decide) (by decide)

/-- C4: on a valid handle `addRemote` normalizes the URL first; a duplicate
name is rejected with a `已存在` (RemoteAlreadyExists) error and no backend
remote creation is issued; a fresh name stores the normalized URL and
preserves uniqueness of remote names. -/
theorem c4_thm (st : RepoState) (be : GitBackend) (name url : List Char)
    (hv : st.valid = true) :
    (GitManager.hasRemote st name = true →
      GitManager.addRemote st be name url =
        ([], .error (pys "添加远程仓库失败: " ++
          (pys "远程仓库 '" ++ name ++ pys "' 已存在")))) ∧
    (GitManager.hasRemote st name = false →
      (GitManager.addRemote st be name url).1 =
        [GitAction.createRemote name (sanitize_url url)] ∧
      (be.createRemoteResult name (sanitize_url url) = .ok () →
        (GitManager.addRemote st be name url).2 =
          .ok { st with remotes := st.remotes ++ [(name, sanitize_url url)] } ∧
        ((st.remotes.map Prod.fst).Nodup →
          ((st.remotes ++ [(name, sanitize_url url)]).map Prod.fst).Nodup))) := by
  constructor
  · intro h
    simp [GitManager.addRemote, hv, h]
  · intro h
    have hnm : name ∉ st.remotes.map Prod.fst := by
      intro hm
      rcases List.mem_map.mp hm with ⟨r, hr, hfst⟩
      have hany : st.remotes.any (fun r => r.1 == name) = true :=
        List.any_eq_true.mpr ⟨r, hr, by simp [hfst]⟩
      rw [GitManager.hasRemote] at h
      rw [hany] at h
      cases h
    refine ⟨by simp [GitManager.addRemote, hv, h], fun hok => ?_⟩
    refine ⟨by simp [GitManager.addRemote, hv, h, hok], fun hnd => ?_⟩
    rw [List.map_append, List.nodup_append]
    refine ⟨hnd, by simp, fun x hx hmem => ?_⟩
    have hx_eq : x = name := by simpa using hmem
    exact hnm (hx_eq ▸ hx)

/-- C4 witness: adding the already-present remote `origin` to the sample
state is rejected with the `已存在` error. -/
theorem c4_witness :
    GitManager.addRemote stSample okBackend (pys "origin") (pys "octocat/Hello-World") =
      ([], .error (pys "添加远程仓库失败: " ++
        (pys "远程仓库 '" ++ pys "origin" ++ pys "' 已存在"))) :=
  (c4_thm stSample okBackend (pys "origin") (pys "octocat/Hello-World")
    (by decide)).1 (by decide)

/-- `pull` never issues a push action. -/
lemma pull_trace_no_push (st : RepoState) (be : GitBackend) (remote : List Char)
    (br : Option (List Char)) :
    ∀ su r b, GitAction.gitPush su r b ∉ (GitManager.pull st be remote br).1 := by
  intro su r b
  unfold GitManager.pull
  split
  · simp
  · split
    · simp
    · simp

/-- C5: on a valid handle `syncWithRemote` resolves an omitted branch to the
current branch once, runs `pull` then `push` against that same remote and
branch, never pushes when the pull step fails, and wraps a pull failure as a
`同步失败` error. -/
theorem c5_thm (st : RepoState) (be : GitBackend) (remote : List Char)
    (hv : st.valid = true) :
    (∀ e, (GitManager.pull st be remote (some (GitManager.getCurrentBranch st))).2 =
        .error e →
      GitManager.syncWithRemote st be remote none =
        ((GitManager.pull st be remote (some (GitManager.getCurrentBranch st))).1,
          .error (pys "同步失败: " ++ e))) ∧
    ((GitManager.pull st be remote (some (GitManager.getCurrentBranch st))).2 = .ok () →
      GitManager.syncWithRemote st be remote none =
        ((GitManager.pull st be remote (some (GitManager.getCurrentBranch st))).1 ++
          (GitManager.push st be remote (some (GitManager.getCurrentBranch st)) false).1,
         match (GitManager.push st be remote
            (some (GitManager.getCurrentBranch st)) false).2 with
         | .ok _ => .ok ()
         | .error e => .error (pys "同步失败: " ++ e))) ∧
    (∀ su r b, GitAction.gitPush su r b ∉
      (GitManager.pull st be remote (some (GitManager.getCurrentBranch st))).1) := by
  refine ⟨?_, ?_, pull_trace_no_push st be remote _⟩
  · intro e he
    rcases hp : GitManager.pull st be remote (some (GitManager.getCurrentBranch st))
      with ⟨t, r⟩
    rw [hp] at he
    simp at he
    subst he
    simp [GitManager.syncWithRemote, hv, hp]
  · intro hok
    rcases hp : GitManager.pull st be remote (some (GitManager.getCurrentBranch st))
      with ⟨t, r⟩
    rw [hp] at hok
    simp at hok
    subst hok
    rcases hq : GitManager.push st be remote (some (GitManager.getCurrentBranch st)) false
      with ⟨t2, r2⟩
    cases r2 <;> simp [GitManager.syncWithRemote, hv, hp, hq]

/-- C5 witness: with a backend whose pull fails on resolving the host, the
sync on the sample state pulls, classifies the failure, and never pushes. -/
theorem c5_witness :
    (∀ e, (GitManager.pull stSample pullFailBackend (pys "origin")
        (some (GitManager.getCurrentBranch stSample))).2 = .error e →
      GitManager.syncWithRemote stSample pullFailBackend (pys "origin") none =
        ((GitManager.pull stSample pullFailBackend (pys "origin")
          (some (GitManager.getCurrentBranch stSample))).1,
          .error (pys "同步失败: " ++ e))) ∧
    ((GitManager.pull stSample pullFailBackend (pys "origin")
        (some (GitManager.getCurrentBranch stSample))).2 = .ok () →
      GitManager.syncWithRemote stSample pullFailBackend (pys "origin") none =
        ((GitManager.pull stSample pullFailBackend (pys "origin")
          (some (GitManager.getCurrentBranch stSample))).1 ++
          (GitManager.push stSample pullFailBackend (pys "origin")
            (some (GitManager.getCurrentBranch stSample)) false).1,
         match (GitManager.push stSample pullFailBackend (pys "origin")
            (some (GitManager.getCurrentBranch stSample)) false).2 with
         | .ok _ => .ok ()
         | .error e => .error (pys "同步失败: " ++ e))) ∧
    (∀ su r b, GitAction.gitPush su r b ∉
      (GitManager.pull stSample pullFailBackend (pys "origin")
        (some (GitManager.getCurrentBranch stSample))).1) :=
  c5_thm stSample pullFailBackend (pys "origin") (by decide)

/-- C10: `initRepository` on an existing, non-empty directory that already
holds `.git` metadata returns the existing repository and, whatever the
backend, performs no mutation: no directory creation, no README write, no
add, no commit. -/
theorem c10_thm (be : GitBackend) (fs : FSView) (branch : List Char)
    (h1 : fs.pathExists = true) (h2 : fs.nonempty = true) (h3 : fs.hasGit = true) :
    GitManager.initRepository be fs branch = ([], .ok InitResult.existingRepo) := by
  simp [GitManager.initRepository, h1, h2, h3]

/-- C10 witness: concrete instance. -/
theorem c10_witness :
    GitManager.initRepository okBackend
      { pathExists := true, nonempty := true, hasGit := true } (pys "main") =
      ([], .ok InitResult.existingRepo) :=
  c10_thm _ _ _ (by decide) (by decide) (by decide)

/-! ## Claim theorems: asynchronous executor (C7, C9) -/

/-- The `Except` outcome of the manager call made by `GitThread.run`'s
dispatch branch for `op` (an unrecognised operation counts as the failure the
source emits for it). -/
def GitThread.opOutcome (op : List Char) (st : RepoState) (be : GitBackend)
    (fs : FSView) (params : GitParams) : Except (List Char) Unit :=
  if op = pys "pull" then
    (GitManager.pull st be (params.remote_name.getD (pys "origin")) params.branch).2
  else if op = pys "push" then
    (GitManager.push st be (params.remote_name.getD (pys "origin")) params.branch
      (params.set_upstream.getD false)).2
  else if op = pys "fetch" then
    (GitManager.fetch st be (params.remote_name.getD (pys "origin"))).2
  else if op = pys "commit" then
    (GitManager.commit st be (params.file_paths.getD [])
      (params.message.getD (pys "提交更改"))).2
  else if op = pys "sync" then
    (GitManager.syncWithRemote st be (params.remote_name.getD (pys "origin"))
      params.branch).2
  else if op = pys "init" then
    match (GitManager.initRepository be fs (params.initial_branch.getD (pys "main"))).2 with
    | .ok _ => .ok ()
    | .error e => .error e
  else if op = pys "clone" then
    (GitManager.cloneRepository be (params.url.getD [])
      (params.target_path.getD []) params.branch).2
  else .error (pys "未知的Git操作: " ++ op)

/-- Every dispatch branch emits exactly one `finished` event, whose success
flag reflects the manager call's outcome. -/
lemma dispatch_shape (op : List Char) (st : RepoState) (be : GitBackend)
    (fs : FSView) (params : GitParams) :
    ∃ m, GitThread.dispatch op st be fs params =
      [GTEvent.finished (exceptOkB (GitThread.opOutcome op st be fs params)) op m] := by
  unfold GitThread.dispatch GitThread.opOutcome
  split_ifs
  · rcases hr : GitManager.pull st be (params.remote_name.getD (pys "origin"))
      params.branch with ⟨t, r⟩
    cases r with
    | ok v =>
      exact ⟨pys "已从 " ++ params.remote_name.getD (pys "origin") ++ pys " 成功拉取更新",
        by simp [hr, exceptOkB]⟩
    | error e => exact ⟨e, by simp [hr, exceptOkB]⟩
  · rcases hr : GitManager.push st be (params.remote_name.getD (pys "origin"))
      params.branch (params.set_upstream.getD false) with ⟨t, r⟩
    cases r with
    | ok v =>
      exact ⟨pys "已成功推送至 " ++ params.remote_name.getD (pys "origin"),
        by simp [hr, exceptOkB]⟩
    | error e => exact ⟨e, by simp [hr, exceptOkB]⟩
  · rcases hr : GitManager.fetch st be (params.remote_name.getD (pys "origin"))
      with ⟨t, r⟩
    cases r with
    | ok v =>
      exact ⟨pys "已从 " ++ params.remote_name.getD (pys "origin") ++ pys " 获取最新更改",
        by simp [hr, exceptOkB]⟩
    | error e => exact ⟨e, by simp [hr, exceptOkB]⟩
  · rcases hr : GitManager.commit st be (params.file_paths.getD [])
      (params.message.getD (pys "提交更改")) with ⟨t, r⟩
    cases r with
    | ok v =>
      exact ⟨pys "已成功提交更改: " ++ params.message.getD (pys "提交更改"),
        by simp [hr, exceptOkB]⟩
    | error e => exact ⟨e, by simp [hr, exceptOkB]⟩
  · rcases hr : GitManager.syncWithRemote st be
      (params.remote_name.getD (pys "origin")) params.branch with ⟨t, r⟩
    cases r with
    | ok v =>
      exact ⟨pys "已与 " ++ params.remote_name.getD (pys "origin") ++ pys " 同步完成",
        by simp [hr, exceptOkB]⟩
    | error e => exact ⟨e, by simp [hr, exceptOkB]⟩
  · rcases hr : GitManager.initRepository be fs (params.initial_branch.getD (pys "main"))
      with ⟨t, r⟩
    cases r with
    | ok v =>
      exact ⟨pys "已在 " ++ params.path.getD [] ++ pys " 初始化仓库",
        by simp [hr, exceptOkB]⟩
    | error e => exact ⟨e, by simp [hr, exceptOkB]⟩
  · rcases hr : GitManager.cloneRepository be (params.url.getD [])
      (params.target_path.getD []) params.branch with ⟨t, r⟩
    cases r with
    | ok v =>
      exact ⟨pys "已克隆仓库至 " ++ params.target_path.getD [],
        by simp [hr, exceptOkB]⟩
    | error e => exact ⟨e, by simp [hr, exceptOkB]⟩
  · exact ⟨pys "未知的Git操作: " ++ op, by simp [exceptOkB]⟩

/-- C7: once configured with a non-empty operation and a manager, `run` emits
exactly the two events `started(op)` then one `finished(success, op, msg)`,
where `success` is `true` exactly when the dispatched manager call succeeded;
being a total function of its inputs, it never raises to its caller. -/
theorem c7_thm (op : List Char) (st : RepoState) (be : GitBackend) (fs : FSView)
    (params : GitParams) (h : op ≠ []) :
    ∃ m, GitThread.run op (some st) be fs params =
      [GTEvent.started op,
       GTEvent.finished (exceptOkB (GitThread.opOutcome op st be fs params)) op m] := by
  rcases dispatch_shape op st be fs params with ⟨m, hd⟩
  cases op with
  | nil => exact absurd rfl h
  | cons c rest =>
    refine ⟨m, ?_⟩
    show GTEvent.started (c :: rest) :: GitThread.dispatch (c :: rest) st be fs params = _
    rw [hd]

/-- C7 witness: a concrete pull run on the sample state emits exactly
`started` then a successful `finished`. -/
theorem c7_witness :
    ∃ m, GitThread.run (pys "pull") (some stSample) okBackend
      { pathExists := true, nonempty := true, hasGit := true } {} =
      [GTEvent.started (pys "pull"),
       GTEvent.finished (exceptOkB (GitThread.opOutcome (pys "pull") stSample okBackend
         { pathExists := true, nonempty := true, hasGit := true } {})) (pys "pull") m] :=
  c7_thm (pys "pull") stSample okBackend
    { pathExists := true, nonempty := true, hasGit := true } {} (by decide)

/-- C9: with a falsy operation or a missing manager, `run` emits exactly one
event — `finished(false, "未知操作", "未设置操作或GitManager")` — and in
particular no `started` event, and returns without raising. -/
theorem c9_thm (op : List Char) (gm : Option RepoState) (be : GitBackend)
    (fs : FSView) (params : GitParams) (h : op = [] ∨ gm = none) :
    GitThread.run op gm be fs params =
      [GTEvent.finished false (pys "未知操作") (pys "未设置操作或GitManager")] := by
  rcases h with h | h
  · subst h
    cases gm with
    | none => rfl
    | some st => rfl
  · subst h
    rfl

/-- C9 witness: concrete instance with an unset operation. -/
theorem c9_witness :
    GitThread.run [] (some stSample) okBackend
      { pathExists := true, nonempty := true, hasGit := true } {} =
      [GTEvent.finished false (pys "未知操作") (pys "未设置操作或GitManager")] :=
  c9_thm [] (some stSample) okBackend
    { pathExists := true, nonempty := true, hasGit := true } {} (Or.inl rfl)

/-! ## Claim theorems: OAuth callback listener (C6) -/

/-- C6 counterexample: a `/github/callback` request carrying an error
indicator and no code is answered with HTTP 400 but resolves nothing — the
empty resolution list shows no session outcome is delivered to the waiting
caller, contrary to the claimed `{error}` resolution. -/
theorem c6_counterexample :
    OAuthCallbackHandler.do_GET
      { path := pys "/github/callback"
        query := [(pys "error", [pys "access_denied"]),
                  (pys "error_description", [pys "用户拒绝了授权"])] } = (400, []) := by
  decide

/-- C6 (amended): a callback request without a `code` parameter is answered
with HTTP 400 and resolves nothing: no callback is invoked, so the pending
session stays unresolved. -/
theorem c6_amended (req : HttpRequest)
    (h : req.path = pys "/github/callback" ∨ req.path = pys "/gitlab/callback")
    (hc : queryHas req.query (pys "code") = false) :
    OAuthCallbackHandler.do_GET req = (400, []) := by
  rcases h with h | h
  · simp [OAuthCallbackHandler.do_GET, h, hc]
  · rw [OAuthCallbackHandler.do_GET, if_neg (by rw [h]; decide), if_pos h]
    simp [hc]

/-- C6 witness: concrete instance of the amended theorem on the GitLab
path. -/
theorem c6_witness :
    OAuthCallbackHandler.do_GET
      { path := pys "/gitlab/callback"
        query := [(pys "error", [pys "access_denied"])] } = (400, []) :=
  c6_amended _ (Or.inr rfl) (by decide)
